import Mathlib

/-!
# Verification of the BRD converter core
 (`examples/LanguagePoliteness/brds/excelToBrd.py`)

Shallow embedding of the record extractor, step planner, graph builder and the
two driver loops (whole-table mode `process_excel_file` and translation mode
`process_csv_language_translation` / `write_brd_files`) of the converter, with
theorems settling the specification's claims about them.

External collaborators (pandas table loading, the jieba tokenizer, the seeded
shuffle, `uuid.uuid4()`) are modelled as inputs: a table is a list of rows of
optional string cells (`none` = NaN), a translation row carries the already
tokenized word list and the already shuffled title list, and UUID generation is
a supply function `Nat → String` consumed at successive indices.
-/

set_option maxHeartbeats 1000000

/-- Association-list model of a Python dict from field name to value
(`problem_data`).  Python dicts preserve insertion order; `List.lookup` finds
the unique binding of a key. -/
abbrev FieldRecord := List (String × String)

/-- One planned step: the `(field, value, action, actor)` tuple appended to the
`steps` list in `generate_brd`. -/
structure Step where
  field : String
  value : String
  actionKind : String
  actor : String
deriving DecidableEq, Repr

/-- A `matcher` element as produced by `create_matcher(matcher_type, value)`
(its single `matcherParameter` holds the value). -/
structure Matcher where
  matcherType : String
  param : String
deriving DecidableEq, Repr

/-- The varying content of an `actionLabel` element built by
`create_action_label`.  Attributes and subelements that are string constants in
the source (`preferPathMark`, `verb`, `actionType`, ...) are identical in every
document and are not carried around. -/
structure ActionLabel where
  uniqueID : Nat
  transactionId : String
  selection : String
  action : String
  inputValue : String
  hintMessage : String
  selectionMatcher : Matcher
  actionMatcher : Matcher
  inputMatcher : Matcher
  actor : String
deriving DecidableEq, Repr

/-- A `node` element from `create_node`: text label, uniqueID counter value and
the `dimension` x/y coordinates. -/
structure Node where
  text : String
  uniqueID : Nat
  x : Int
  y : Int
deriving DecidableEq, Repr

/-- An `edge` element from `create_edge`: embedded action label plus
`sourceID`/`destID` node references. -/
structure Edge where
  label : ActionLabel
  sourceID : Nat
  destID : Nat
deriving DecidableEq, Repr

/-- One generated BRD document (`stateGraph`): the node chain followed by the
edge chain.  The remaining parts of the root element are constants. -/
structure Document where
  nodes : List Node
  edges : List Edge
deriving DecidableEq, Repr

/-- Mutable generator state: `self.node_counter` and `self.edge_counter`, plus
an index counting successive draws from the external UUID facility (each
`uuid.uuid4()` call consumes the next index). -/
structure GenState where
  nodeCounter : Nat
  edgeCounter : Nat
  uuidIndex : Nat
deriving DecidableEq, Repr

/-- `BRDGenerator.__init__`: both counters start at 1. -/
def initState : GenState := ⟨1, 1, 0⟩

/-- `create_node(text, x_pos, y_pos)`: emits a node carrying the current
`node_counter` and increments the counter. -/
def create_node (st : GenState) (text : String) (x y : Int) : Node × GenState :=
  (⟨text, st.nodeCounter, x, y⟩, { st with nodeCounter := st.nodeCounter + 1 })

/-- `create_matcher("ExactMatcher", value)` as used for all three matchers. -/
def exactMatcher (v : String) : Matcher := ⟨"ExactMatcher", v⟩

/-- `create_action_label(selection, action, input_value, hint_message, actor)`:
uniqueID is the current `edge_counter` (incremented later by `create_edge`),
`transaction_id` is the next draw from the UUID supply. -/
def create_action_label (uuids : Nat → String) (st : GenState)
    (selection action inputValue hintMessage actor : String) :
    ActionLabel × GenState :=
  (⟨st.edgeCounter, uuids st.uuidIndex, selection, action, inputValue, hintMessage,
    exactMatcher selection, exactMatcher action, exactMatcher inputValue, actor⟩,
   { st with uuidIndex := st.uuidIndex + 1 })

/-- `create_edge(source_id, dest_id, action_label)`: emits the edge and
increments `edge_counter`. -/
def create_edge (st : GenState) (sourceID destID : Nat) (label : ActionLabel) :
    Edge × GenState :=
  (⟨label, sourceID, destID⟩, { st with edgeCounter := st.edgeCounter + 1 })

/-- Field name formatting `f"person-a-word-{i}"` / `f"option-word-{i}"`. -/
def mkFieldName (base : String) (i : Nat) : String := base ++ toString i

/-- The literal list iterated for the basic steps of `generate_brd`. -/
def basicFields : List String :=
  ["situation-input", "relationship-a-input", "relationship-b-input"]

/-- The `person_words` collection loop of `generate_brd`:
`for i in range(2, 16)` keep the present `person-a-word-i` fields. -/
def personWords (pd : FieldRecord) : List (String × String) :=
  (List.range' 2 14).filterMap fun i =>
    (pd.lookup (mkFieldName "person-a-word-" i)).map fun v =>
      (mkFieldName "person-a-word-" i, v)

/-- The synthetic terminal step `('done', '-1', "ButtonPressed", "Student")`. -/
def doneStep : Step := ⟨"done", "-1", "ButtonPressed", "Student"⟩

/-- All steps appended by `generate_brd` before the final `done` step: basic
fields, collected person words, option words 1..5, then the optional
`formal-checkbox` and `person-a-word-1` Student steps. -/
def stepsBeforeDone (pd : FieldRecord) : List Step :=
  (basicFields.filterMap fun f =>
    (pd.lookup f).map fun v => ⟨f, v, "UpdateTextField", "Tutor (unevaluated)"⟩)
  ++ (personWords pd).map (fun p => ⟨p.1, p.2, "UpdateTextField", "Tutor (unevaluated)"⟩)
  ++ ((List.range' 1 5).filterMap fun i =>
    (pd.lookup (mkFieldName "option-word-" i)).map fun v =>
      ⟨mkFieldName "option-word-" i, v, "UpdateTextField", "Tutor (unevaluated)"⟩)
  ++ (match pd.lookup "formal-checkbox" with
      | some v => [⟨"formal-checkbox", v, "UpdateTextField", "Student"⟩]
      | none => [])
  ++ (match pd.lookup "person-a-word-1" with
      | some v => [⟨"person-a-word-1", v, "UpdateTextField", "Student"⟩]
      | none => [])

/-- The complete `steps` list of `generate_brd` ("Done button (always last)"). -/
def steps (pd : FieldRecord) : List Step := stepsBeforeDone pd ++ [doneStep]

/-- `x_positions = [217, -83]`. -/
def xPositions : List Int := [217, -83]

/-- The node-creation loop `for i, (...) in enumerate(steps)` of `generate_brd`:
x position `x_positions[(i + 1) % 2]`, text `f"state{i + 2}"`, y advancing by
160 per node. -/
def buildStepNodes (st : GenState) (i : Nat) (yPos : Int) :
    List Step → List Node × GenState
  | [] => ([], st)
  | _ :: rest =>
    let xPos := xPositions.getD ((i + 1) % 2) 0
    let p := create_node st ("state" ++ toString (i + 2)) xPos yPos
    let q := buildStepNodes p.2 (i + 1) (yPos + 160) rest
    (p.1 :: q.1, q.2)

/-- All nodes of a document: the leading `"empty"` node at `(217, 25)` followed
by one node per step (y having advanced to `25 + 160`). -/
def buildNodes (st : GenState) (stps : List Step) : List Node × GenState :=
  let p := create_node st "empty" 217 25
  let q := buildStepNodes p.2 0 (25 + 160) stps
  (p.1 :: q.1, q.2)

/-- Hint-message selection in the edge loop of `generate_brd`. -/
def hintFor (field value : String) : String :=
  if field = "done" then "Please click the highlighted button."
  else "Please enter \"" ++ value ++ "\" in the highlighted field."

/-- Default node used for the (always in-range) list indexing `nodes[i]`. -/
def defaultNode : Node := ⟨"", 0, 0, 0⟩

/-- The edge-creation loop of `generate_brd`: edge `i` is built from step `i`
and joins `nodes[i]` to `nodes[i + 1]`. -/
def buildEdges (uuids : Nat → String) (st : GenState) (nodes : List Node)
    (i : Nat) : List Step → List Edge × GenState
  | [] => ([], st)
  | s :: rest =>
    let p := create_action_label uuids st s.field s.actionKind s.value
      (hintFor s.field s.value) s.actor
    let q := create_edge p.2 (nodes.getD i defaultNode).uniqueID
      (nodes.getD (i + 1) defaultNode).uniqueID p.1
    let r := buildEdges uuids q.2 nodes (i + 1) rest
    (q.1 :: r.1, r.2)

/-- `generate_brd(problem_data, problem_name)`: plan the steps, create all
nodes, then all edges.  (The `problem_name` argument does not influence the
emitted graph: the start message always says `"empty"`.) -/
def generate_brd (uuids : Nat → String) (st : GenState) (pd : FieldRecord) :
    Document × GenState :=
  let stps := steps pd
  let p := buildNodes st stps
  let q := buildEdges uuids p.2 p.1 0 stps
  (⟨p.1, q.1⟩, q.2)

/-- A table cell: `none` models a pandas NaN (`pd.notna` fails). -/
abbrev Cell := Option String

/-- One table row (cell 0 holds the field name). -/
abbrev TableRow := List Cell

/-- The dataframe iterated by `extract_problem_data`. -/
abbrev Table := List TableRow

/-- Python `str.strip()`: remove leading and trailing whitespace.  Python
strings are code-point sequences, so the string helpers are modelled over the
character list. -/
def pyStrip (s : String) : String :=
  ⟨((s.data.dropWhile Char.isWhitespace).reverse.dropWhile Char.isWhitespace).reverse⟩

/-- Python `str.startswith(pre)`. -/
def pyStartswith (s pre : String) : Bool := pre.data.isPrefixOf s.data

/-- Python `str.endswith(suf)`. -/
def pyEndswith (s suf : String) : Bool := suf.data.isSuffixOf s.data

/-- The wrapper strip in `extract_problem_data`: remove `%(` ... `)%` when both
delimiters are present (`field_name[2:-2]`, a code-point slice). -/
def cleanName (t : String) : String :=
  if pyStartswith t "%(" && pyEndswith t ")%" then
    ⟨((t.data.drop 2).reverse.drop 2).reverse⟩
  else t

/-- Python dict assignment `problem_data[field_name] = value`: overwrite the
existing binding in place, or append a fresh one. -/
def dictInsert (pd : FieldRecord) (k v : String) : FieldRecord :=
  if pd.any fun p => p.1 == k then
    pd.map fun p => if p.1 == k then (k, v) else p
  else pd ++ [(k, v)]

/-- The body of the row loop of `extract_problem_data`: skip NaN or blank
field names, clean the name, skip NaN or blank values, else insert the trimmed
value. -/
def extractRow (col : Nat) (pd : FieldRecord) (row : TableRow) : FieldRecord :=
  match row.getD 0 none with
  | none => pd
  | some fn =>
    if pyStrip fn = "" then pd
    else
      match row.getD col none with
      | none => pd
      | some v =>
        if pyStrip v = "" then pd
        else dictInsert pd (cleanName (pyStrip fn)) (pyStrip v)

/-- `extract_problem_data(df, problem_column)` over the row list, with `col`
the index of the problem column. -/
def extract_problem_data (tbl : Table) (col : Nat) : FieldRecord :=
  tbl.foldl (extractRow col) []

/-- The `meaningful_data` dict comprehension in `process_excel_file`. -/
def meaningful (pd : FieldRecord) : FieldRecord :=
  pd.filter fun p =>
    p.2 != "" && pyStrip p.2 != "" && p.2 != "nan" && !(pyStartswith p.1 "Unnamed")

/-- Outcome of one problem column in `process_excel_file`; the two `skipped`
constructors correspond to the printed `Skipping ...` diagnostics ("no data
found" and "insufficient meaningful data"). -/
inductive ColResult where
  | skippedNoData : ColResult
  | skippedInsufficient : ColResult
  | produced : Document → ColResult
deriving DecidableEq, Repr

/-- Body of the per-column loop of `process_excel_file`: reset the two
counters, extract the column's record, apply the two skip checks, and
otherwise run `generate_brd` on `meaningful_data`. -/
def processColumn (uuids : Nat → String) (st : GenState) (tbl : Table)
    (col : Nat) : ColResult × GenState :=
  let st1 := { st with nodeCounter := 1, edgeCounter := 1 }
  let pd := extract_problem_data tbl col
  if pd = [] then (ColResult.skippedNoData, st1)
  else
    let md := meaningful pd
    if md.length < 2 then (ColResult.skippedInsufficient, st1)
    else
      let p := generate_brd uuids st1 md
      (ColResult.produced p.1, p.2)

/-- The whole-table run: `process_excel_file`'s loop over the problem-column
indices, threading the generator state. -/
def processColumns (uuids : Nat → String) (st : GenState) (tbl : Table) :
    List Nat → List ColResult × GenState
  | [] => ([], st)
  | c :: rest =>
    let p := processColumn uuids st tbl c
    let q := processColumns uuids p.2 tbl rest
    (p.1 :: q.1, q.2)

/-- One row of a translation-mode table after the external collaborators ran:
the scalar fields are already `str(...).strip()`-ped, `titles` is `all_titles`
after `random.shuffle`, and `words` is the jieba tokenization of the completed
sentence. -/
structure TransRow where
  situation : String
  relA : String
  relB : String
  formality : String
  titles : List String
  words : List String
deriving DecidableEq, Repr

/-- `problem_data_1step` as built in `write_brd_files`: the three scalar
fields are always inserted (even when blank), then one `option-word-{i+1}` per
shuffled title and one `person-a-word-{i+1}` per sentence word. -/
def problemData1step (r : TransRow) : FieldRecord :=
  [("situation-input", r.situation),
   ("relationship-a-input", r.relA),
   ("relationship-b-input", r.relB)]
  ++ r.titles.enum.map (fun p => (mkFieldName "option-word-" (p.1 + 1), p.2))
  ++ r.words.enum.map (fun p => (mkFieldName "person-a-word-" (p.1 + 1), p.2))

/-- `problem_data_2step`: the 1step record plus the `formal-checkbox` field. -/
def problemData2step (r : TransRow) : FieldRecord :=
  dictInsert (problemData1step r) "formal-checkbox" r.formality

/-- The per-row loop of `write_brd_files`: a 1step document then a 2step
document per row, threading the generator state.  Note: unlike the column loop
of `process_excel_file`, this loop never resets `node_counter` or
`edge_counter`. -/
def write_brd_files (uuids : Nat → String) (st : GenState) :
    List TransRow → List Document × GenState
  | [] => ([], st)
  | r :: rest =>
    let p := generate_brd uuids st (problemData1step r)
    let q := generate_brd uuids p.2 (problemData2step r)
    let z := write_brd_files uuids q.2 rest
    (p.1 :: q.1 :: z.1, z.2)

/-- `n_test = max(1, int(n_rows * 0.2))`.  The double product `n * 0.2` always
lies in `[n/5, n/5 + 1)` for feasible row counts (`0.2` rounds up from `1/5`,
so the product exceeds the rational `n/5` by under one part in `10^16`), hence
`int(...)` truncates it to `⌊n / 5⌋`. -/
def nTest (n : Nat) : Nat := max 1 (n / 5)

/-- The train/test split of `process_csv_language_translation` over the
shuffled row list: `test_df = df.tail(n_test)` and
`train_df = df.iloc[:n_rows - n_test]` when `n_rows > n_test`, else empty.
Returns `(train, test)`. -/
def splitRows (rows : List TransRow) : List TransRow × List TransRow :=
  let n := rows.length
  let t := nTest n
  ((if t < n then rows.take (n - t) else []), rows.drop (n - t))

/-- Lowercase hexadecimal digit test. -/
def isHexDigit (c : Char) : Bool := "0123456789abcdef".data.contains c

/-- Syntactic shape of `str(uuid.uuid4())`: 36 characters, hyphens at offsets
8/13/18/23, version nibble `4` at offset 14, variant nibble in `8/9/a/b` at
offset 19, lowercase hex digits elsewhere. -/
def isValidUuid (s : String) : Bool :=
  s.length == 36 &&
  ((List.range 36).all fun i =>
    let c := s.data.getD i ' '
    if i == 8 || i == 13 || i == 18 || i == 23 then c == '-'
    else if i == 14 then c == '4'
    else if i == 19 then c == '8' || c == '9' || c == 'a' || c == 'b'
    else isHexDigit c)

/-- Blank out a label's `transaction_id`. -/
def eraseLabel (l : ActionLabel) : ActionLabel := { l with transactionId := "" }

/-- Blank out an edge's `transaction_id`. -/
def eraseEdge (e : Edge) : Edge := { e with label := eraseLabel e.label }

/-- A document with every `transaction_id` field blanked: what remains of the
serialized output once the transaction-id lines are ignored. -/
def eraseDoc (d : Document) : Document := { d with edges := d.edges.map eraseEdge }

/-- The `transaction_id`s emitted for one column result. -/
def docTxIds (r : ColResult) : List String :=
  match r with
  | ColResult.produced d => d.edges.map fun e => e.label.transactionId
  | _ => []

/-- All `transaction_id`s of a whole-table run, in emission order. -/
def runTransactionIds (rs : List ColResult) : List String := rs.flatMap docTxIds

/-- Number of action labels emitted for one column result. -/
def docEdgeCount (r : ColResult) : Nat :=
  match r with
  | ColResult.produced d => d.edges.length
  | _ => 0

/-- Total number of action labels (= UUID draws) of a run. -/
def runEdgeTotal (rs : List ColResult) : Nat := (rs.map docEdgeCount).sum

/-- Default step for (always in-range) list indexing. -/
def defaultStep : Step := ⟨"", "", "", ""⟩

/-- Default action label for list indexing. -/
def defaultLabel : ActionLabel :=
  ⟨0, "", "", "", "", "", exactMatcher "", exactMatcher "", exactMatcher "", ""⟩

/-- Default edge for list indexing. -/
def defaultEdge : Edge := ⟨defaultLabel, 0, 0⟩

/-- The empty document. -/
def emptyDoc : Document := ⟨[], []⟩

/-- A translation row whose seven source cells are all empty strings: titles
and word list are empty, every scalar field is `""`. -/
def blankRow : TransRow := ⟨"", "", "", "", [], []⟩

/-- Modelled from the claim text of C3 (specification §4.2): the category
order of the step planner, written with explicit index lists, excluding the
terminal `done` step. -/
def plannedStepsSpec (pd : FieldRecord) : List Step :=
  (["situation-input", "relationship-a-input", "relationship-b-input"].filterMap fun f =>
    (pd.lookup f).map fun v => ⟨f, v, "UpdateTextField", "Tutor (unevaluated)"⟩)
  ++ ([2, 3, 4, 5, 6, 7, 8, 9, 10, 11, 12, 13, 14, 15].filterMap fun i =>
    (pd.lookup (mkFieldName "person-a-word-" i)).map fun v =>
      ⟨mkFieldName "person-a-word-" i, v, "UpdateTextField", "Tutor (unevaluated)"⟩)
  ++ ([1, 2, 3, 4, 5].filterMap fun i =>
    (pd.lookup (mkFieldName "option-word-" i)).map fun v =>
      ⟨mkFieldName "option-word-" i, v, "UpdateTextField", "Tutor (unevaluated)"⟩)
  ++ (match pd.lookup "formal-checkbox" with
      | some v => [⟨"formal-checkbox", v, "UpdateTextField", "Student"⟩]
      | none => [])
  ++ (match pd.lookup "person-a-word-1" with
      | some v => [⟨"person-a-word-1", v, "UpdateTextField", "Student"⟩]
      | none => [])

/-- Modelled from the claim text of C6 (specification §4.1): the entry a row
contributes — its trimmed, unwrapped name and trimmed value — when both the
name and the target-column value are non-blank. -/
def rowEntry (col : Nat) (row : TableRow) : Option (String × String) :=
  match row.getD 0 none, row.getD col none with
  | some fn, some v =>
    if pyStrip fn ≠ "" ∧ pyStrip v ≠ "" then
      some (cleanName (pyStrip fn), pyStrip v)
    else none
  | _, _ => none

/-- Modelled from the claim text of C6: the record obtained by inserting
exactly the qualifying rows' entries, in row order. -/
def extractSpec (tbl : Table) (col : Nat) : FieldRecord :=
  (tbl.filterMap (rowEntry col)).foldl (fun pd p => dictInsert pd p.1 p.2) []

/-- The field names the step planner ever looks up. -/
def queriedKeys : List String :=
  basicFields ++ (List.range' 2 14).map (mkFieldName "person-a-word-")
  ++ (List.range' 1 5).map (mkFieldName "option-word-")
  ++ ["formal-checkbox", "person-a-word-1"]

theorem buildStepNodes_length (l : List Step) : ∀ st i y,
    (buildStepNodes st i y l).1.length = l.length := by
  induction l with
  | nil => intro st i y; rfl
  | cons s rest ih => intro st i y; simp [buildStepNodes, create_node, ih]

theorem buildStepNodes_state (l : List Step) : ∀ st i y,
    (buildStepNodes st i y l).2 =
      ⟨st.nodeCounter + l.length, st.edgeCounter, st.uuidIndex⟩ := by
  induction l with
  | nil => intro st i y; rfl
  | cons s rest ih =>
    intro st i y
    simp [buildStepNodes, create_node, ih]
    omega

theorem buildStepNodes_map_uniqueID (l : List Step) : ∀ st i y,
    (buildStepNodes st i y l).1.map Node.uniqueID =
      List.range' st.nodeCounter l.length := by
  induction l with
  | nil => intro st i y; rfl
  | cons s rest ih =>
    intro st i y
    simp [buildStepNodes, create_node, ih, List.range'_succ]

theorem buildStepNodes_getD (l : List Step) : ∀ st i y j, j < l.length →
    (buildStepNodes st i y l).1.getD j defaultNode =
      ⟨"state" ++ toString (i + j + 2), st.nodeCounter + j,
       xPositions.getD ((i + j + 1) % 2) 0, y + j * 160⟩ := by
  induction l with
  | nil => intro st i y j h; simp at h
  | cons s rest ih =>
    intro st i y j h
    cases j with
    | zero => simp [buildStepNodes, create_node]
    | succ j' =>
      have h' : j' < rest.length := by simpa using h
      have := ih ⟨st.nodeCounter + 1, st.edgeCounter, st.uuidIndex⟩ (i + 1) (y + 160) j' h'
      simp only [buildStepNodes, create_node, List.getD_cons_succ]
      rw [this]
      have e1 : i + 1 + j' + 2 = i + (j' + 1) + 2 := by omega
      have e2 : st.nodeCounter + 1 + j' = st.nodeCounter + (j' + 1) := by omega
      have e3 : i + 1 + j' + 1 = i + (j' + 1) + 1 := by omega
      have e4 : y + 160 + (j' : Int) * 160 = y + ((j' + 1 : Nat) : Int) * 160 := by
        push_cast; ring
      rw [e1, e2, e3, e4]

theorem buildNodes_length (st : GenState) (l : List Step) :
    (buildNodes st l).1.length = l.length + 1 := by
  simp [buildNodes, create_node, buildStepNodes_length]

theorem buildNodes_state (st : GenState) (l : List Step) :
    (buildNodes st l).2 =
      ⟨st.nodeCounter + (l.length + 1), st.edgeCounter, st.uuidIndex⟩ := by
  simp [buildNodes, create_node, buildStepNodes_state]
  omega

theorem buildNodes_map_uniqueID (st : GenState) (l : List Step) :
    (buildNodes st l).1.map Node.uniqueID =
      List.range' st.nodeCounter (l.length + 1) := by
  simp [buildNodes, create_node, buildStepNodes_map_uniqueID, List.range'_succ]

theorem buildNodes_getD_zero (st : GenState) (l : List Step) :
    (buildNodes st l).1.getD 0 defaultNode = ⟨"empty", st.nodeCounter, 217, 25⟩ := by
  simp [buildNodes, create_node]

theorem buildNodes_getD_succ (st : GenState) (l : List Step) (j : Nat)
    (h : j < l.length) :
    (buildNodes st l).1.getD (j + 1) defaultNode =
      ⟨"state" ++ toString (j + 2), st.nodeCounter + 1 + j,
       xPositions.getD ((j + 1) % 2) 0, 25 + (j + 1) * 160⟩ := by
  have := buildStepNodes_getD l ⟨st.nodeCounter + 1, st.edgeCounter, st.uuidIndex⟩ 0 (25 + 160) j h
  simp only [buildNodes, create_node, List.getD_cons_succ]
  rw [this]
  have e1 : (25 : Int) + 160 + (j : Int) * 160 = 25 + ((j : Int) + 1) * 160 := by ring
  simp only [Nat.zero_add, e1]

theorem buildNodes_getD_uniqueID (st : GenState) (l : List Step) (j : Nat)
    (h : j < l.length + 1) :
    ((buildNodes st l).1.getD j defaultNode).uniqueID = st.nodeCounter + j := by
  cases j with
  | zero => rw [buildNodes_getD_zero]; rfl
  | succ j' =>
    rw [buildNodes_getD_succ st l j' (by omega)]
    show st.nodeCounter + 1 + j' = st.nodeCounter + (j' + 1)
    omega

theorem buildEdges_length (u : Nat → String) (l : List Step) : ∀ st nodes i,
    (buildEdges u st nodes i l).1.length = l.length := by
  induction l with
  | nil => intro st nodes i; rfl
  | cons s rest ih =>
    intro st nodes i
    simp [buildEdges, create_action_label, create_edge, ih]

theorem buildEdges_state (u : Nat → String) (l : List Step) : ∀ st nodes i,
    (buildEdges u st nodes i l).2 =
      ⟨st.nodeCounter, st.edgeCounter + l.length, st.uuidIndex + l.length⟩ := by
  induction l with
  | nil => intro st nodes i; rfl
  | cons s rest ih =>
    intro st nodes i
    simp [buildEdges, create_action_label, create_edge, ih]
    omega

theorem buildEdges_getD (u : Nat → String) (l : List Step) :
    ∀ st nodes i j, j < l.length →
    (buildEdges u st nodes i l).1.getD j defaultEdge =
      ⟨⟨st.edgeCounter + j, u (st.uuidIndex + j), (l.getD j defaultStep).field,
        (l.getD j defaultStep).actionKind, (l.getD j defaultStep).value,
        hintFor (l.getD j defaultStep).field (l.getD j defaultStep).value,
        exactMatcher (l.getD j defaultStep).field,
        exactMatcher (l.getD j defaultStep).actionKind,
        exactMatcher (l.getD j defaultStep).value,
        (l.getD j defaultStep).actor⟩,
       (nodes.getD (i + j) defaultNode).uniqueID,
       (nodes.getD (i + j + 1) defaultNode).uniqueID⟩ := by
  induction l with
  | nil => intro st nodes i j h; simp at h
  | cons s rest ih =>
    intro st nodes i j h
    cases j with
    | zero =>
      simp [buildEdges, create_action_label, create_edge]
    | succ j' =>
      have h' : j' < rest.length := by simpa using h
      have := ih ⟨st.nodeCounter, st.edgeCounter + 1, st.uuidIndex + 1⟩ nodes (i + 1) j' h'
      simp only [buildEdges, create_action_label, create_edge, List.getD_cons_succ]
      rw [this]
      have e1 : st.edgeCounter + 1 + j' = st.edgeCounter + (j' + 1) := by omega
      have e2 : st.uuidIndex + 1 + j' = st.uuidIndex + (j' + 1) := by omega
      have e3 : i + 1 + j' = i + (j' + 1) := by omega
      rw [e1, e2, e3]

theorem buildEdges_map_uniqueID (u : Nat → String) (l : List Step) :
    ∀ st nodes i,
    (buildEdges u st nodes i l).1.map (fun e => e.label.uniqueID) =
      List.range' st.edgeCounter l.length := by
  induction l with
  | nil => intro st nodes i; rfl
  | cons s rest ih =>
    intro st nodes i
    simp [buildEdges, create_action_label, create_edge, ih, List.range'_succ]

theorem buildEdges_map_txId (u : Nat → String) (l : List Step) : ∀ st nodes i,
    (buildEdges u st nodes i l).1.map (fun e => e.label.transactionId) =
      (List.range' st.uuidIndex l.length).map u := by
  induction l with
  | nil => intro st nodes i; rfl
  | cons s rest ih =>
    intro st nodes i
    simp [buildEdges, create_action_label, create_edge, ih, List.range'_succ]

theorem buildEdges_map_selection (u : Nat → String) (l : List Step) :
    ∀ st nodes i,
    (buildEdges u st nodes i l).1.map (fun e => e.label.selection) =
      l.map Step.field := by
  induction l with
  | nil => intro st nodes i; rfl
  | cons s rest ih =>
    intro st nodes i
    simp [buildEdges, create_action_label, create_edge, ih]

theorem buildEdges_erase (u1 u2 : Nat → String) (l : List Step) :
    ∀ st nodes i,
    (buildEdges u1 st nodes i l).1.map eraseEdge =
      (buildEdges u2 st nodes i l).1.map eraseEdge := by
  induction l with
  | nil => intro st nodes i; rfl
  | cons s rest ih =>
    intro st nodes i
    simp [buildEdges, create_action_label, create_edge, eraseEdge, eraseLabel, ih]

theorem generate_brd_nodes (u : Nat → String) (st : GenState) (pd : FieldRecord) :
    (generate_brd u st pd).1.nodes = (buildNodes st (steps pd)).1 := rfl

theorem generate_brd_edges (u : Nat → String) (st : GenState) (pd : FieldRecord) :
    (generate_brd u st pd).1.edges =
      (buildEdges u (buildNodes st (steps pd)).2 (buildNodes st (steps pd)).1 0 (steps pd)).1 := rfl

theorem generate_brd_nodes_length (u : Nat → String) (st : GenState)
    (pd : FieldRecord) :
    (generate_brd u st pd).1.nodes.length = (steps pd).length + 1 := by
  rw [generate_brd_nodes, buildNodes_length]

theorem generate_brd_edges_length (u : Nat → String) (st : GenState)
    (pd : FieldRecord) :
    (generate_brd u st pd).1.edges.length = (steps pd).length := by
  rw [generate_brd_edges, buildEdges_length]

theorem generate_brd_state (u : Nat → String) (st : GenState) (pd : FieldRecord) :
    (generate_brd u st pd).2 =
      ⟨st.nodeCounter + ((steps pd).length + 1),
       st.edgeCounter + (steps pd).length,
       st.uuidIndex + (steps pd).length⟩ := by
  show (buildEdges u (buildNodes st (steps pd)).2 (buildNodes st (steps pd)).1 0 (steps pd)).2 = _
  rw [buildEdges_state, buildNodes_state]

theorem generate_brd_nodes_map_uniqueID (u : Nat → String) (st : GenState)
    (pd : FieldRecord) :
    (generate_brd u st pd).1.nodes.map Node.uniqueID =
      List.range' st.nodeCounter ((steps pd).length + 1) := by
  rw [generate_brd_nodes, buildNodes_map_uniqueID]

theorem generate_brd_edges_map_uniqueID (u : Nat → String) (st : GenState)
    (pd : FieldRecord) :
    (generate_brd u st pd).1.edges.map (fun e => e.label.uniqueID) =
      List.range' st.edgeCounter (steps pd).length := by
  rw [generate_brd_edges, buildEdges_map_uniqueID, buildNodes_state]

theorem generate_brd_edges_map_txId (u : Nat → String) (st : GenState)
    (pd : FieldRecord) :
    (generate_brd u st pd).1.edges.map (fun e => e.label.transactionId) =
      (List.range' st.uuidIndex (steps pd).length).map u := by
  rw [generate_brd_edges, buildEdges_map_txId, buildNodes_state]

theorem generate_brd_erase (u1 u2 : Nat → String) (st : GenState)
    (pd : FieldRecord) :
    eraseDoc (generate_brd u1 st pd).1 = eraseDoc (generate_brd u2 st pd).1 := by
  simp only [eraseDoc, generate_brd_nodes, generate_brd_edges]
  rw [buildEdges_erase u1 u2]

theorem mkFieldName_length (base : String) (i : Nat) :
    base.length ≤ (mkFieldName base i).length := by
  rw [mkFieldName, String.length_append]
  omega

theorem mkFieldName_ne_done (base : String) (i : Nat) (h : 4 < base.length) :
    mkFieldName base i ≠ "done" := by
  intro he
  have hl := congrArg String.length he
  have : base.length ≤ (mkFieldName base i).length := mkFieldName_length base i
  rw [hl] at this
  have h4 : "done".length = 4 := rfl
  omega

theorem mem_stepsBeforeDone_cases (pd : FieldRecord) (s : Step)
    (hs : s ∈ stepsBeforeDone pd) :
    (s.field ∈ basicFields ∧ s.actor = "Tutor (unevaluated)")
    ∨ ((∃ i, 2 ≤ i ∧ i ≤ 15 ∧ s.field = mkFieldName "person-a-word-" i)
        ∧ s.actor = "Tutor (unevaluated)")
    ∨ ((∃ i, 1 ≤ i ∧ i ≤ 5 ∧ s.field = mkFieldName "option-word-" i)
        ∧ s.actor = "Tutor (unevaluated)")
    ∨ (s.field = "formal-checkbox" ∧ s.actor = "Student")
    ∨ (s.field = "person-a-word-1" ∧ s.actor = "Student"
        ∧ pd.lookup "person-a-word-1" ≠ none) := by
  simp only [stepsBeforeDone, List.mem_append] at hs
  rcases hs with ((((h | h) | h) | h) | h)
  · left
    rcases List.mem_filterMap.1 h with ⟨f, hf, hmap⟩
    rcases Option.map_eq_some'.1 hmap with ⟨v, _, hv⟩
    subst hv
    exact ⟨hf, rfl⟩
  · right; left
    rcases List.mem_map.1 h with ⟨p, hp, hv⟩
    subst hv
    rcases List.mem_filterMap.1 hp with ⟨i, hi, hmap⟩
    rcases Option.map_eq_some'.1 hmap with ⟨v, _, hv⟩
    subst hv
    refine ⟨⟨i, ?_, ?_, rfl⟩, rfl⟩ <;> (simp [List.mem_range'_1] at hi; omega)
  · right; right; left
    rcases List.mem_filterMap.1 h with ⟨i, hi, hmap⟩
    rcases Option.map_eq_some'.1 hmap with ⟨v, _, hv⟩
    subst hv
    refine ⟨⟨i, ?_, ?_, rfl⟩, rfl⟩ <;> (simp [List.mem_range'_1] at hi; omega)
  · right; right; right; left
    revert h
    cases hlook : pd.lookup "formal-checkbox" <;> intro h
    · simp at h
    · simp at h
      subst h
      exact ⟨rfl, rfl⟩
  · right; right; right; right
    revert h
    cases hlook : pd.lookup "person-a-word-1" <;> intro h
    · simp at h
    · simp at h
      subst h
      exact ⟨rfl, rfl, by simp⟩

theorem stepsBeforeDone_field_ne_done (pd : FieldRecord) (s : Step)
    (hs : s ∈ stepsBeforeDone pd) : s.field ≠ "done" := by
  rcases mem_stepsBeforeDone_cases pd s hs with
    ⟨hf, _⟩ | ⟨⟨i, _, _, hf⟩, _⟩ | ⟨⟨i, _, _, hf⟩, _⟩ | ⟨hf, _⟩ | ⟨hf, _, _⟩
  · simp only [basicFields, List.mem_cons, List.not_mem_nil, or_false] at hf
    rcases hf with hf | hf | hf <;> simp [hf]
  · rw [hf]; exact mkFieldName_ne_done _ _ (by decide)
  · rw [hf]; exact mkFieldName_ne_done _ _ (by decide)
  · simp [hf]
  · simp [hf]

theorem steps_actor_cases (pd : FieldRecord) (s : Step) (hs : s ∈ steps pd) :
    s.actor = "Tutor (unevaluated)" ∨ s.actor = "Student" := by
  rcases List.mem_append.1 hs with h | h
  · rcases mem_stepsBeforeDone_cases pd s h with
      ⟨_, ha⟩ | ⟨_, ha⟩ | ⟨_, ha⟩ | ⟨_, ha⟩ | ⟨_, ha, _⟩
    · exact Or.inl ha
    · exact Or.inl ha
    · exact Or.inl ha
    · exact Or.inr ha
    · exact Or.inr ha
  · simp only [List.mem_singleton] at h
    subst h
    exact Or.inr rfl

theorem steps_no_student_paw1 (pd : FieldRecord)
    (h : pd.lookup "person-a-word-1" = none) (s : Step) (hs : s ∈ steps pd) :
    ¬(s.actor = "Student" ∧ s.field = "person-a-word-1") := by
  rintro ⟨ha, hf⟩
  rcases List.mem_append.1 hs with hm | hm
  · rcases mem_stepsBeforeDone_cases pd s hm with
      ⟨_, hA⟩ | ⟨_, hA⟩ | ⟨_, hA⟩ | ⟨hF, _⟩ | ⟨_, _, hne⟩
    · rw [hA] at ha; exact absurd ha (by decide)
    · rw [hA] at ha; exact absurd ha (by decide)
    · rw [hA] at ha; exact absurd ha (by decide)
    · rw [hf] at hF; exact absurd hF (by decide)
    · exact hne h
  · simp only [List.mem_singleton] at hm
    subst hm
    exact absurd hf (by decide)

theorem steps_length_eq (pd : FieldRecord) :
    (steps pd).length = (stepsBeforeDone pd).length + 1 := by
  simp [steps]

theorem steps_getD_last (pd : FieldRecord) :
    (steps pd).getD (stepsBeforeDone pd).length defaultStep = doneStep := by
  rw [steps, List.getD_eq_getElem?_getD, List.getElem?_concat_length]
  rfl

theorem steps_getD_lt_mem (pd : FieldRecord) (i : Nat)
    (h : i < (stepsBeforeDone pd).length) :
    (steps pd).getD i defaultStep ∈ stepsBeforeDone pd := by
  rw [steps, List.getD_eq_getElem?_getD, List.getElem?_append_left h,
    List.getElem?_eq_getElem h]
  exact List.getElem_mem h

theorem enter_ne_click (v : String) :
    "Please enter \"" ++ v ++ "\" in the highlighted field." ≠
      "Please click the highlighted button." := by
  intro he
  have hl := congrArg String.length he
  rw [String.length_append, String.length_append] at hl
  have h1 : ("Please enter \"" : String).length = 14 := rfl
  have h2 : ("\" in the highlighted field." : String).length = 27 := rfl
  have h3 : ("Please click the highlighted button." : String).length = 36 := rfl
  omega

theorem hintFor_eq_click_iff (f v : String) :
    hintFor f v = "Please click the highlighted button." ↔ f = "done" := by
  by_cases hf : f = "done"
  · simp [hintFor, hf]
  · simp only [hintFor, if_neg hf]
    exact ⟨fun he => absurd he (enter_ne_click v), fun he => absurd he hf⟩

theorem hintFor_of_ne (f v : String) (hf : f ≠ "done") :
    hintFor f v = "Please enter \"" ++ v ++ "\" in the highlighted field." := by
  simp [hintFor, hf]

theorem getD_mem_of_lt {α : Type} (l : List α) (i : Nat) (d : α)
    (h : i < l.length) : l.getD i d ∈ l := by
  rw [List.getD_eq_getElem?_getD, List.getElem?_eq_getElem h]
  exact List.getElem_mem h

/-- The worked example of specification §8: five populated fields. -/
def examplePd : FieldRecord :=
  [("situation-input", "At work"), ("relationship-a-input", "Boss"),
   ("relationship-b-input", "Employee"), ("option-word-1", "Sir"),
   ("option-word-2", "Bro")]

/-- C4: for every field record (including the empty one), the generated graph
has one more node than edges, and the final step is always the synthetic
`done` step (value `-1`, ButtonPressed, Student), appended unconditionally —
witnessed both in the step list and as the last emitted edge selection. -/
theorem C4_node_count_done_last (u : Nat → String) (st : GenState)
    (pd : FieldRecord) :
    (generate_brd u st pd).1.nodes.length = (generate_brd u st pd).1.edges.length + 1
    ∧ (steps pd).getLast? = some doneStep
    ∧ doneStep = ⟨"done", "-1", "ButtonPressed", "Student"⟩
    ∧ ((generate_brd u st pd).1.edges.map (fun e => e.label.selection)).getLast?
        = some "done" := by
  refine ⟨?_, ?_, rfl, ?_⟩
  · rw [generate_brd_nodes_length, generate_brd_edges_length]
  · rw [steps]
    exact List.getLast?_concat _
  · rw [generate_brd_edges, buildEdges_map_selection, steps, List.map_append]
    simp [List.getLast?_concat, doneStep]

/-- C9: the graph builder places node 0 with label `empty` at `(217, 25)`, and
node `i` (1-indexed over the steps) with label `state{i+1}`, `y = 25 + i·160`
and `x` equal to the element at index `i % 2` of the pair `[217, -83]` (so the
first step node sits at `x = -83`). -/
theorem C9_node_layout (u : Nat → String) (st : GenState) (pd : FieldRecord)
    (i : Nat) (h1 : 1 ≤ i) (h2 : i ≤ (steps pd).length) :
    (generate_brd u st pd).1.nodes.getD 0 defaultNode =
      ⟨"empty", st.nodeCounter, 217, 25⟩
    ∧ ((generate_brd u st pd).1.nodes.getD i defaultNode).text =
        "state" ++ toString (i + 1)
    ∧ ((generate_brd u st pd).1.nodes.getD i defaultNode).y =
        25 + (i : Int) * 160
    ∧ ((generate_brd u st pd).1.nodes.getD i defaultNode).x =
        xPositions.getD (i % 2) 0 := by
  obtain ⟨j, rfl⟩ : ∃ j, i = j + 1 := ⟨i - 1, by omega⟩
  have hj : j < (steps pd).length := by omega
  refine ⟨?_, ?_, ?_, ?_⟩
  · rw [generate_brd_nodes, buildNodes_getD_zero]
  · rw [generate_brd_nodes, buildNodes_getD_succ st (steps pd) j hj]
  · rw [generate_brd_nodes, buildNodes_getD_succ st (steps pd) j hj]
    show (25 : Int) + ((j : Int) + 1) * 160 = 25 + ((j + 1 : Nat) : Int) * 160
    push_cast
    ring
  · rw [generate_brd_nodes, buildNodes_getD_succ st (steps pd) j hj]

/-- C5: edge `i` (0-indexed here; the claim's 1-indexed edge `i` joins node
`i-1` to node `i`) connects consecutive nodes and carries an action label with
selection = the step's field, action = its actionKind, inputValue = its value,
the button hint exactly on the terminal `done` step and the quoted-value hint
otherwise, `ExactMatcher` triples over selection/action/input, and the step's
actor, which is always `Tutor (unevaluated)` or `Student`. -/
theorem C5_edge_content (u : Nat → String) (st : GenState) (pd : FieldRecord)
    (i : Nat) (h : i < (steps pd).length) :
    ((generate_brd u st pd).1.edges.getD i defaultEdge).sourceID =
      ((generate_brd u st pd).1.nodes.getD i defaultNode).uniqueID
    ∧ ((generate_brd u st pd).1.edges.getD i defaultEdge).destID =
      ((generate_brd u st pd).1.nodes.getD (i + 1) defaultNode).uniqueID
    ∧ ((generate_brd u st pd).1.edges.getD i defaultEdge).label.selection =
        ((steps pd).getD i defaultStep).field
    ∧ ((generate_brd u st pd).1.edges.getD i defaultEdge).label.action =
        ((steps pd).getD i defaultStep).actionKind
    ∧ ((generate_brd u st pd).1.edges.getD i defaultEdge).label.inputValue =
        ((steps pd).getD i defaultStep).value
    ∧ (((generate_brd u st pd).1.edges.getD i defaultEdge).label.hintMessage =
        "Please click the highlighted button." ↔ i = (steps pd).length - 1)
    ∧ (i ≠ (steps pd).length - 1 →
        ((generate_brd u st pd).1.edges.getD i defaultEdge).label.hintMessage =
          "Please enter \"" ++ ((steps pd).getD i defaultStep).value ++
            "\" in the highlighted field.")
    ∧ ((generate_brd u st pd).1.edges.getD i defaultEdge).label.selectionMatcher =
        exactMatcher ((steps pd).getD i defaultStep).field
    ∧ ((generate_brd u st pd).1.edges.getD i defaultEdge).label.actionMatcher =
        exactMatcher ((steps pd).getD i defaultStep).actionKind
    ∧ ((generate_brd u st pd).1.edges.getD i defaultEdge).label.inputMatcher =
        exactMatcher ((steps pd).getD i defaultStep).value
    ∧ ((generate_brd u st pd).1.edges.getD i defaultEdge).label.actor =
        ((steps pd).getD i defaultStep).actor
    ∧ (((steps pd).getD i defaultStep).actor = "Tutor (unevaluated)" ∨
        ((steps pd).getD i defaultStep).actor = "Student") := by
  have hE := buildEdges_getD u (steps pd) (buildNodes st (steps pd)).2
    (buildNodes st (steps pd)).1 0 i h
  simp only [Nat.zero_add] at hE
  simp only [generate_brd_edges, generate_brd_nodes, hE]
  refine ⟨trivial, trivial, trivial, trivial, trivial, ?_, ?_, trivial, trivial,
    trivial, trivial, ?_⟩
  · show hintFor ((steps pd).getD i defaultStep).field
      ((steps pd).getD i defaultStep).value = _ ↔ _
    rw [hintFor_eq_click_iff]
    have hlb := steps_length_eq pd
    constructor
    · intro hdone
      by_contra hne
      have hilt : i < (stepsBeforeDone pd).length := by omega
      exact stepsBeforeDone_field_ne_done pd _ (steps_getD_lt_mem pd i hilt) hdone
    · intro hi
      have hieq : i = (stepsBeforeDone pd).length := by omega
      rw [hieq, steps_getD_last]
      rfl
  · intro hne
    show hintFor ((steps pd).getD i defaultStep).field
      ((steps pd).getD i defaultStep).value = _
    have hlb := steps_length_eq pd
    have hilt : i < (stepsBeforeDone pd).length := by omega
    exact hintFor_of_ne _ _
      (stepsBeforeDone_field_ne_done pd _ (steps_getD_lt_mem pd i hilt))
  · exact steps_actor_cases pd _ (getD_mem_of_lt _ _ _ h)

/-- Closed instance of C5 on the §8 example record: edge 0 of its document
carries the `situation-input` selection, the enter-hint, and consecutive node
endpoints. -/
theorem C5_edge_content_witness :
    ((generate_brd (fun _ => "") initState examplePd).1.edges.getD 0 defaultEdge).label.selection =
      ((steps examplePd).getD 0 defaultStep).field
    ∧ ((generate_brd (fun _ => "") initState examplePd).1.edges.getD 0 defaultEdge).sourceID =
      ((generate_brd (fun _ => "") initState examplePd).1.nodes.getD 0 defaultNode).uniqueID :=
  ⟨(C5_edge_content (fun _ => "") initState examplePd 0 (by decide)).2.2.1,
   (C5_edge_content (fun _ => "") initState examplePd 0 (by decide)).1⟩

/-- Closed instance of C9 on the §8 example: node 1 of its document. -/
theorem C9_node_layout_witness :
    ((generate_brd (fun _ => "") initState examplePd).1.nodes.getD 1 defaultNode).text =
      "state" ++ toString 2
    ∧ ((generate_brd (fun _ => "") initState examplePd).1.nodes.getD 1 defaultNode).x =
      xPositions.getD (1 % 2) 0 :=
  ⟨(C9_node_layout (fun _ => "") initState examplePd 1 (by decide) (by decide)).2.1,
   (C9_node_layout (fun _ => "") initState examplePd 1 (by decide) (by decide)).2.2.2⟩

theorem lookup_map_replace_ne (k k' v : String) (h : k' ≠ k) (pd : FieldRecord) :
    (pd.map fun p => if p.1 == k then (k, v) else p).lookup k' = pd.lookup k' := by
  induction pd with
  | nil => rfl
  | cons p rest ih =>
    by_cases hpk : p.1 = k
    · have hb : (p.1 == k) = true := beq_iff_eq.2 hpk
      have hk' : (k' == k) = false := beq_eq_false_iff_ne.2 h
      have hp' : (k' == p.1) = false := beq_eq_false_iff_ne.2 (hpk ▸ h)
      cases p with
      | mk pk pv =>
        simp only [List.map_cons, hb, if_pos] at *
        rw [List.lookup_cons, List.lookup_cons]
        simp only [hk', hp']
        exact ih
    · have hb : (p.1 == k) = false := beq_eq_false_iff_ne.2 hpk
      cases p with
      | mk pk pv =>
        simp only [List.map_cons, hb] at *
        rw [if_neg (by simp [hb]), List.lookup_cons, List.lookup_cons]
        cases hkk : (k' == pk)
        · exact ih
        · rfl

theorem lookup_append_single_ne (k k' v : String) (h : k' ≠ k) (pd : FieldRecord) :
    (pd ++ [(k, v)]).lookup k' = pd.lookup k' := by
  induction pd with
  | nil =>
    have hk' : (k' == k) = false := beq_eq_false_iff_ne.2 h
    simp [List.lookup_cons, hk']
  | cons p rest ih =>
    cases p with
    | mk pk pv =>
      rw [List.cons_append, List.lookup_cons, List.lookup_cons]
      cases hkk : (k' == pk)
      · exact ih
      · rfl

/-- A Python dict assignment of key `k` leaves lookups of other keys alone. -/
theorem lookup_dictInsert_ne (k k' v : String) (h : k' ≠ k) (pd : FieldRecord) :
    (dictInsert pd k v).lookup k' = pd.lookup k' := by
  rw [dictInsert]
  split
  · exact lookup_map_replace_ne k k' v h pd
  · exact lookup_append_single_ne k k' v h pd

theorem steps_congr (pd1 pd2 : FieldRecord)
    (h : ∀ k ∈ queriedKeys, pd1.lookup k = pd2.lookup k) :
    steps pd1 = steps pd2 := by
  have hb : ∀ f ∈ basicFields, pd1.lookup f = pd2.lookup f := fun f hf =>
    h f (List.mem_append_left _ (List.mem_append_left _ (List.mem_append_left _ hf)))
  have hp : ∀ i ∈ List.range' 2 14,
      pd1.lookup (mkFieldName "person-a-word-" i) =
        pd2.lookup (mkFieldName "person-a-word-" i) := fun i hi =>
    h _ (List.mem_append_left _ (List.mem_append_left _
      (List.mem_append_right _ (List.mem_map_of_mem _ hi))))
  have ho : ∀ i ∈ List.range' 1 5,
      pd1.lookup (mkFieldName "option-word-" i) =
        pd2.lookup (mkFieldName "option-word-" i) := fun i hi =>
    h _ (List.mem_append_left _ (List.mem_append_right _
      (List.mem_map_of_mem _ hi)))
  have hf : pd1.lookup "formal-checkbox" = pd2.lookup "formal-checkbox" :=
    h _ (List.mem_append_right _ (List.mem_cons_self _ _))
  have h1 : pd1.lookup "person-a-word-1" = pd2.lookup "person-a-word-1" :=
    h _ (List.mem_append_right _ (List.mem_cons_of_mem _ (List.mem_cons_self _ _)))
  have e1 : (basicFields.filterMap fun f =>
      (pd1.lookup f).map fun v => Step.mk f v "UpdateTextField" "Tutor (unevaluated)") =
      (basicFields.filterMap fun f =>
      (pd2.lookup f).map fun v => Step.mk f v "UpdateTextField" "Tutor (unevaluated)") :=
    List.filterMap_congr (fun f hf' => by rw [hb f hf'])
  have e2 : personWords pd1 = personWords pd2 := by
    rw [personWords, personWords]
    exact List.filterMap_congr (fun i hi => by rw [hp i hi])
  have e3 : ((List.range' 1 5).filterMap fun i =>
      (pd1.lookup (mkFieldName "option-word-" i)).map fun v =>
        Step.mk (mkFieldName "option-word-" i) v "UpdateTextField" "Tutor (unevaluated)") =
      ((List.range' 1 5).filterMap fun i =>
      (pd2.lookup (mkFieldName "option-word-" i)).map fun v =>
        Step.mk (mkFieldName "option-word-" i) v "UpdateTextField" "Tutor (unevaluated)") :=
    List.filterMap_congr (fun i hi => by rw [ho i hi])
  rw [steps, steps, stepsBeforeDone, stepsBeforeDone, e1, e2, e3, hf, h1]

/-- C3: the planned step sequence is exactly the claim's category order
(situation/relationship inputs, person-a-word-2..15 ascending, option-word-1..5
ascending, then the Student-actor formal-checkbox and person-a-word-1 steps,
each only if present), followed by the terminal step; when `person-a-word-1`
is absent no Student-actor step with that name appears anywhere; and adding an
out-of-range `person-a-word-16` or `option-word-6` field leaves the sequence
unchanged (no step, no error). -/
theorem C3_step_order (pd : FieldRecord) (v : String) :
    steps pd = plannedStepsSpec pd ++ [doneStep]
    ∧ (pd.lookup "person-a-word-1" = none →
        "person-a-word-1" ∉
          ((steps pd).filter (fun s => s.actor == "Student")).map Step.field)
    ∧ steps (dictInsert pd "person-a-word-16" v) = steps pd
    ∧ steps (dictInsert pd "option-word-6" v) = steps pd := by
  refine ⟨?_, ?_, ?_, ?_⟩
  · rw [steps, stepsBeforeDone, plannedStepsSpec, personWords]
    have hr2 : List.range' 2 14 = [2, 3, 4, 5, 6, 7, 8, 9, 10, 11, 12, 13, 14, 15] := rfl
    have hr1 : List.range' 1 5 = [1, 2, 3, 4, 5] := rfl
    rw [hr2, hr1]
    simp only [List.map_filterMap, Option.map_map, Function.comp_def, basicFields]
  · intro h hmem
    rcases List.mem_map.1 hmem with ⟨s, hsf, hf⟩
    rcases List.mem_filter.1 hsf with ⟨hsm, hact⟩
    exact steps_no_student_paw1 pd h s hsm ⟨by simpa using hact, hf⟩
  · have hne : ∀ k ∈ queriedKeys, k ≠ "person-a-word-16" := by decide
    exact steps_congr _ pd fun k hk => lookup_dictInsert_ne _ _ _ (hne k hk) pd
  · have hne : ∀ k ∈ queriedKeys, k ≠ "option-word-6" := by decide
    exact steps_congr _ pd fun k hk => lookup_dictInsert_ne _ _ _ (hne k hk) pd

/-- Closed instance of C3 on the §8 example record (which lacks
`person-a-word-1`): its planned order matches the specification's order and no
Student-actor `person-a-word-1` step appears. -/
theorem C3_step_order_witness :
    steps examplePd = plannedStepsSpec examplePd ++ [doneStep]
    ∧ "person-a-word-1" ∉
        ((steps examplePd).filter (fun s => s.actor == "Student")).map Step.field :=
  ⟨(C3_step_order examplePd "").1, (C3_step_order examplePd "").2.1 rfl⟩

theorem processColumn_produced (u : Nat → String) (st : GenState) (tbl : Table)
    (col : Nat) (d : Document)
    (h : (processColumn u st tbl col).1 = ColResult.produced d) :
    d.nodes.map Node.uniqueID = List.range' 1 d.nodes.length
    ∧ d.edges.map (fun e => e.label.uniqueID) = List.range' 1 d.edges.length := by
  simp only [processColumn] at h
  by_cases h0 : extract_problem_data tbl col = []
  · rw [if_pos h0] at h
    exact absurd h (by simp)
  · rw [if_neg h0] at h
    by_cases h1 : (meaningful (extract_problem_data tbl col)).length < 2
    · rw [if_pos h1] at h
      exact absurd h (by simp)
    · rw [if_neg h1] at h
      injection h with h'
      subst h'
      constructor
      · rw [generate_brd_nodes_map_uniqueID, generate_brd_nodes_length]
      · rw [generate_brd_edges_map_uniqueID, generate_brd_edges_length]

theorem processColumns_produced_ids (u : Nat → String) (tbl : Table) :
    ∀ (cols : List Nat) (st : GenState) (d : Document),
    ColResult.produced d ∈ (processColumns u st tbl cols).1 →
    d.nodes.map Node.uniqueID = List.range' 1 d.nodes.length
    ∧ d.edges.map (fun e => e.label.uniqueID) = List.range' 1 d.edges.length := by
  intro cols
  induction cols with
  | nil => intro st d hd; simp [processColumns] at hd
  | cons c rest ih =>
    intro st d hd
    rw [processColumns] at hd
    rcases List.mem_cons.1 hd with h | h
    · exact processColumn_produced u st tbl c d h.symm
    · exact ih _ d h

/-- A two-row table whose only problem column holds two meaningful fields. -/
def exampleTable : Table :=
  [[some "situation-input", some "At work"],
   [some "relationship-a-input", some "Boss"]]

/-- The single document of the whole-table run over `exampleTable`. -/
def exampleRunDoc : Document :=
  (generate_brd (fun _ => "") ⟨1, 1, 0⟩
    (meaningful (extract_problem_data exampleTable 1))).1

/-- C1 (amended): within one document the node uniqueIDs are consecutive from
the generator's current node counter and the edge/actionLabel uniqueIDs
consecutive from the current edge counter; in whole-table mode both counters
are reset to 1 before each document, so every document of such a run has node
ids exactly `1..N` and edge ids exactly `1..M`.  The original claim fails for
translation mode, where no reset happens between documents (see the
counterexample below). -/
theorem C1_amended_ids (u : Nat → String) (st : GenState) (pd : FieldRecord)
    (tbl : Table) (cols : List Nat) (d : Document)
    (hd : ColResult.produced d ∈ (processColumns u st tbl cols).1) :
    ((generate_brd u st pd).1.nodes.map Node.uniqueID =
        List.range' st.nodeCounter ((generate_brd u st pd).1.nodes.length)
      ∧ (generate_brd u st pd).1.edges.map (fun e => e.label.uniqueID) =
        List.range' st.edgeCounter ((generate_brd u st pd).1.edges.length))
    ∧ (d.nodes.map Node.uniqueID = List.range' 1 d.nodes.length
      ∧ d.edges.map (fun e => e.label.uniqueID) = List.range' 1 d.edges.length) := by
  refine ⟨⟨?_, ?_⟩, processColumns_produced_ids u tbl cols st d hd⟩
  · rw [generate_brd_nodes_map_uniqueID, generate_brd_nodes_length]
  · rw [generate_brd_edges_map_uniqueID, generate_brd_edges_length]

/-- Closed instance of the amended C1: the document of the `exampleTable` run
has node ids `1..N`. -/
theorem C1_amended_ids_witness :
    exampleRunDoc.nodes.map Node.uniqueID = List.range' 1 exampleRunDoc.nodes.length :=
  (C1_amended_ids (fun _ => "") initState examplePd exampleTable [1]
    exampleRunDoc (by decide)).2.1

/-- C1 counterexample: in translation mode the counters are never reset, so
the second document generated in a run (here from one all-blank row) has node
uniqueIDs `6..11` — not `1..6` as the claim requires. -/
theorem C1_counterexample :
    ((write_brd_files (fun _ => "") initState [blankRow]).1.getD 1 emptyDoc).nodes.map
        Node.uniqueID = [6, 7, 8, 9, 10, 11]
    ∧ ((write_brd_files (fun _ => "") initState [blankRow]).1.getD 1 emptyDoc).nodes.map
        Node.uniqueID ≠
      List.range' 1 ((write_brd_files (fun _ => "") initState [blankRow]).1.getD 1
        emptyDoc).nodes.length := by
  constructor <;> decide

/-- A one-row table whose problem column yields a single meaningful field. -/
def smallTable : Table := [[some "situation-input", some "x"]]

/-- C2 (amended): in whole-table mode, a problem column whose extracted record
has fewer than two meaningful fields yields no document — only one of the two
skip diagnostics — and the run continues with the remaining columns (the skip
is not fatal).  The original claim also asserts this for translation-mode
examples, but translation mode never skips (see the counterexample below). -/
theorem C2_amended_skip (u : Nat → String) (st : GenState) (tbl : Table)
    (col : Nat) (rest : List Nat)
    (h : (meaningful (extract_problem_data tbl col)).length < 2) :
    ((processColumn u st tbl col).1 = ColResult.skippedNoData ∨
      (processColumn u st tbl col).1 = ColResult.skippedInsufficient)
    ∧ (∀ d, (processColumn u st tbl col).1 ≠ ColResult.produced d)
    ∧ (processColumns u st tbl (col :: rest)).1 =
        (processColumn u st tbl col).1 ::
          (processColumns u (processColumn u st tbl col).2 tbl rest).1 := by
  have hskip : (processColumn u st tbl col).1 = ColResult.skippedNoData ∨
      (processColumn u st tbl col).1 = ColResult.skippedInsufficient := by
    simp only [processColumn]
    by_cases h0 : extract_problem_data tbl col = []
    · rw [if_pos h0]
      exact Or.inl rfl
    · rw [if_neg h0, if_pos h]
      exact Or.inr rfl
  refine ⟨hskip, ?_, rfl⟩
  intro d hd
  rcases hskip with h' | h' <;> rw [h'] at hd <;> exact ColResult.noConfusion hd

/-- Closed instance of the amended C2: the single-field column of `smallTable`
is skipped with a diagnostic. -/
theorem C2_amended_skip_witness :
    (processColumn (fun _ => "") initState smallTable 1).1 = ColResult.skippedNoData ∨
      (processColumn (fun _ => "") initState smallTable 1).1 = ColResult.skippedInsufficient :=
  (C2_amended_skip (fun _ => "") initState smallTable 1 [] (by decide)).1

/-- C2 counterexample: a translation-mode example (an all-blank row) whose
records have zero meaningful fields still produces both its documents —
`write_brd_files` never applies the skip check. -/
theorem C2_counterexample :
    (meaningful (problemData1step blankRow)).length < 2
    ∧ (meaningful (problemData2step blankRow)).length < 2
    ∧ (write_brd_files (fun _ => "") initState [blankRow]).1.length = 2 := by
  exact ⟨by decide, by decide, rfl⟩

theorem extractRow_eq_rowEntry (col : Nat) (pd : FieldRecord) (row : TableRow) :
    extractRow col pd row =
      match rowEntry col row with
      | some p => dictInsert pd p.1 p.2
      | none => pd := by
  rw [extractRow, rowEntry]
  cases row.getD 0 none with
  | none => rfl
  | some fn =>
    cases row.getD col none with
    | none =>
      by_cases hf : pyStrip fn = "" <;> simp [hf]
    | some v =>
      by_cases hf : pyStrip fn = ""
      · simp [hf]
      · by_cases hv : pyStrip v = "" <;> simp [hf, hv]

theorem extract_foldl_eq (col : Nat) :
    ∀ (tbl : Table) (acc : FieldRecord),
    tbl.foldl (extractRow col) acc =
      (tbl.filterMap (rowEntry col)).foldl (fun pd p => dictInsert pd p.1 p.2) acc := by
  intro tbl
  induction tbl with
  | nil => intro acc; rfl
  | cons row rest ih =>
    intro acc
    rw [List.foldl_cons, extractRow_eq_rowEntry, ih]
    cases hre : rowEntry col row with
    | none => simp [List.filterMap_cons, hre]
    | some p => simp [List.filterMap_cons, hre]

/-- C6: the record extractor does exactly what the claim describes: one dict
insertion per row whose first-column name and target-column value are both
non-blank after trimming (the optional `%(...)%` wrapper stripped from the
name), in row order; all other rows are skipped silently, and the result may
be empty. -/
theorem C6_extract_spec (tbl : Table) (col : Nat) :
    extract_problem_data tbl col = extractSpec tbl col
    ∧ extract_problem_data [] col = [] :=
  ⟨extract_foldl_eq col tbl [], rfl⟩

/-- C7: on a (shuffled) translation table of exactly 50 rows, exactly 10 rows
route to the test directories and the remaining 40 to the train directories,
and train and test partition the rows — no row is routed to both. -/
theorem C7_split_50 (rows : List TransRow) (h : rows.length = 50) :
    (splitRows rows).2.length = 10
    ∧ (splitRows rows).1.length = 40
    ∧ (splitRows rows).1 ++ (splitRows rows).2 = rows := by
  have ht : nTest rows.length = 10 := by rw [h]; decide
  have hlt : nTest rows.length < rows.length := by rw [ht, h]; norm_num
  have h1 : (splitRows rows).1 = rows.take (rows.length - nTest rows.length) := by
    simp only [splitRows, if_pos hlt]
  have h2 : (splitRows rows).2 = rows.drop (rows.length - nTest rows.length) := rfl
  refine ⟨?_, ?_, ?_⟩
  · rw [h2, List.length_drop, ht, h]
  · rw [h1, List.length_take, ht, h]; decide
  · rw [h1, h2, List.take_append_drop]

/-- Closed instance of C7 on a concrete 50-row table. -/
theorem C7_split_50_witness :
    (splitRows (List.replicate 50 blankRow)).2.length = 10
    ∧ (splitRows (List.replicate 50 blankRow)).1.length = 40 :=
  ⟨(C7_split_50 _ (by simp)).1, (C7_split_50 _ (by simp)).2.1⟩

/-- C10: for every translation table with `n ≥ 1` rows, the test part has
`max 1 ⌊n/5⌋` rows (`int(n * 0.2)` equals `⌊n/5⌋` for every feasible size);
in particular a table of 1–4 rows still sends one row to test, a 1-row table
leaves the train set empty, and train/test always partition the rows — so the
80/20 split is exact exactly when `⌊n/5⌋ ≥ 1`. -/
theorem C10_split_general (rows : List TransRow) (h : 1 ≤ rows.length) :
    (splitRows rows).2.length = max 1 (rows.length / 5)
    ∧ (rows.length ≤ 4 → (splitRows rows).2.length = 1)
    ∧ (rows.length = 1 → (splitRows rows).1 = [])
    ∧ (splitRows rows).1 ++ (splitRows rows).2 = rows := by
  have h5 := Nat.div_le_self rows.length 5
  have htn : nTest rows.length ≤ rows.length := by
    rw [nTest]; omega
  have hlen2 : (splitRows rows).2.length = nTest rows.length := by
    rw [show (splitRows rows).2 = rows.drop (rows.length - nTest rows.length) from rfl,
      List.length_drop]
    omega
  refine ⟨?_, ?_, ?_, ?_⟩
  · rw [hlen2, nTest]
  · intro h4
    have h50 : rows.length / 5 = 0 := by omega
    rw [hlen2, nTest, h50]; decide
  · intro h1
    have hteq : nTest rows.length = 1 := by rw [nTest, h1]; decide
    rw [show (splitRows rows).1 = (if nTest rows.length < rows.length then
      rows.take (rows.length - nTest rows.length) else []) from rfl]
    rw [if_neg (by omega)]
  · by_cases hc : nTest rows.length < rows.length
    · rw [show (splitRows rows).1 = (if nTest rows.length < rows.length then
        rows.take (rows.length - nTest rows.length) else []) from rfl,
        if_pos hc,
        show (splitRows rows).2 = rows.drop (rows.length - nTest rows.length) from rfl,
        List.take_append_drop]
    · rw [show (splitRows rows).1 = (if nTest rows.length < rows.length then
        rows.take (rows.length - nTest rows.length) else []) from rfl,
        if_neg hc,
        show (splitRows rows).2 = rows.drop (rows.length - nTest rows.length) from rfl]
      have hz : rows.length - nTest rows.length = 0 := by omega
      rw [hz, List.drop_zero, List.nil_append]

/-- Closed instance of C10 on a 1-row table: one test row, empty train set. -/
theorem C10_split_general_witness :
    (splitRows [blankRow]).2.length = max 1 ([blankRow].length / 5)
    ∧ (splitRows [blankRow]).1 = [] :=
  ⟨(C10_split_general [blankRow] (by simp)).1,
   (C10_split_general [blankRow] (by simp)).2.2.1 rfl⟩

theorem processColumn_txids (u : Nat → String) (st : GenState) (tbl : Table)
    (col : Nat) :
    docTxIds (processColumn u st tbl col).1 =
      (List.range' st.uuidIndex (docEdgeCount (processColumn u st tbl col).1)).map u
    ∧ (processColumn u st tbl col).2.uuidIndex =
      st.uuidIndex + docEdgeCount (processColumn u st tbl col).1 := by
  simp only [processColumn]
  by_cases h0 : extract_problem_data tbl col = []
  · rw [if_pos h0]
    exact ⟨rfl, rfl⟩
  · rw [if_neg h0]
    by_cases h1 : (meaningful (extract_problem_data tbl col)).length < 2
    · rw [if_pos h1]
      exact ⟨rfl, rfl⟩
    · rw [if_neg h1]
      constructor
      · show ((generate_brd u _ _).1.edges.map fun e => e.label.transactionId) = _
        rw [generate_brd_edges_map_txId]
        show _ = (List.range' st.uuidIndex (generate_brd u _ _).1.edges.length).map u
        rw [generate_brd_edges_length]
      · show (generate_brd u _ _).2.uuidIndex = _
        rw [generate_brd_state]
        show st.uuidIndex + _ = st.uuidIndex + (generate_brd u _ _).1.edges.length
        rw [generate_brd_edges_length]

theorem processColumns_txids (u : Nat → String) (tbl : Table) :
    ∀ (cols : List Nat) (st : GenState),
    runTransactionIds (processColumns u st tbl cols).1 =
      (List.range' st.uuidIndex
        (runEdgeTotal (processColumns u st tbl cols).1)).map u
    ∧ (processColumns u st tbl cols).2.uuidIndex =
      st.uuidIndex + runEdgeTotal (processColumns u st tbl cols).1 := by
  intro cols
  induction cols with
  | nil => intro st; exact ⟨rfl, rfl⟩
  | cons c rest ih =>
    intro st
    have hc := processColumn_txids u st tbl c
    have hr := ih (processColumn u st tbl c).2
    constructor
    · show docTxIds (processColumn u st tbl c).1 ++
        runTransactionIds (processColumns u (processColumn u st tbl c).2 tbl rest).1 = _
      rw [hc.1, hr.1, hc.2, ← List.map_append, List.range'_append_1]
      have he : runEdgeTotal (processColumns u st tbl (c :: rest)).1 =
          runEdgeTotal (processColumns u (processColumn u st tbl c).2 tbl rest).1 +
            docEdgeCount (processColumn u st tbl c).1 := by
        show docEdgeCount (processColumn u st tbl c).1 +
          runEdgeTotal (processColumns u (processColumn u st tbl c).2 tbl rest).1 = _
        omega
      rw [he]
    · show (processColumns u (processColumn u st tbl c).2 tbl rest).2.uuidIndex = _
      rw [hr.2, hc.2]
      show _ = st.uuidIndex + (docEdgeCount (processColumn u st tbl c).1 +
        runEdgeTotal (processColumns u (processColumn u st tbl c).2 tbl rest).1)
      omega

/-- An injective UUID supply used to instantiate the distinctness part. -/
def injSupply : Nat → String := fun n => ⟨List.replicate n 'a'⟩

theorem injSupply_injective : Function.Injective injSupply := by
  intro a b hab
  have := congrArg (fun s => s.data.length) hab
  simpa [injSupply] using this

/-- C8: (i) two runs that differ only in the drawn UUIDs produce identical
documents once the transaction ids are blanked, and identical generator
states — so with the same random seed the output is byte-identical except the
transaction-id fields; (ii) the transaction ids of a whole-table run are the
UUID supply evaluated at consecutive (hence pairwise distinct) indices, so
(iii) an injective supply gives pairwise-distinct transaction ids and (iv) a
supply of syntactically valid UUIDs gives only valid transaction ids. -/
theorem C8_uuid_determinism :
    (∀ (u1 u2 : Nat → String) (st : GenState) (pd : FieldRecord),
      eraseDoc (generate_brd u1 st pd).1 = eraseDoc (generate_brd u2 st pd).1
      ∧ (generate_brd u1 st pd).2 = (generate_brd u2 st pd).2)
    ∧ (∀ (u : Nat → String) (st : GenState) (tbl : Table) (cols : List Nat),
      runTransactionIds (processColumns u st tbl cols).1 =
        (List.range' st.uuidIndex
          (runEdgeTotal (processColumns u st tbl cols).1)).map u)
    ∧ (∀ (u : Nat → String) (st : GenState) (tbl : Table) (cols : List Nat),
      Function.Injective u →
        (runTransactionIds (processColumns u st tbl cols).1).Nodup)
    ∧ (∀ (u : Nat → String) (st : GenState) (tbl : Table) (cols : List Nat),
      (∀ n, isValidUuid (u n) = true) →
        (runTransactionIds (processColumns u st tbl cols).1).all isValidUuid = true) := by
  refine ⟨?_, ?_, ?_, ?_⟩
  · intro u1 u2 st pd
    refine ⟨generate_brd_erase u1 u2 st pd, ?_⟩
    rw [generate_brd_state, generate_brd_state]
  · intro u st tbl cols
    exact (processColumns_txids u tbl cols st).1
  · intro u st tbl cols hinj
    rw [(processColumns_txids u tbl cols st).1]
    exact (List.nodup_range' _ _).map hinj
  · intro u st tbl cols hval
    rw [(processColumns_txids u tbl cols st).1]
    rw [List.all_eq_true]
    intro t ht
    rcases List.mem_map.1 ht with ⟨n, _, hn⟩
    rw [← hn]
    exact hval n

/-- Closed instance of C8 on the `exampleTable` run: an injective supply gives
pairwise-distinct transaction ids, and a valid-UUID supply gives only valid
transaction ids. -/
theorem C8_uuid_determinism_witness :
    (runTransactionIds (processColumns injSupply initState exampleTable [1]).1).Nodup
    ∧ (runTransactionIds (processColumns
        (fun _ => "123e4567-e89b-42d3-a456-426614174000")
        initState exampleTable [1]).1).all isValidUuid = true :=
  ⟨C8_uuid_determinism.2.2.1 injSupply initState exampleTable [1] injSupply_injective,
   C8_uuid_determinism.2.2.2 (fun _ => "123e4567-e89b-42d3-a456-426614174000")
     initState exampleTable [1]
     (fun _ => (by decide :
       isValidUuid "123e4567-e89b-42d3-a456-426614174000" = true))⟩
